import Mathlib

/-!
# OpportunityOS — shallow embedding and verification

This file embeds the core of the OpportunityOS TypeScript codebase in Lean 4
and proves (or refutes) the specification's claims about it.

Embedded components (translated from the source, file by file):

* `src/types.ts` — the `Opportunity` data model, status and type enums.
  TS string enums are modelled as `String` values together with the explicit
  list of legal enum members (`Object.values(OpportunityStatus)`), because the
  store validates raw JSON records whose `status` field may be any string.
* `src/core/OpportunityStore.ts` (bundled in `config/ConfigurationManager.ts`
  in this snapshot) — the JSON-file-backed store.  The in-memory
  `Map<string, Opportunity>` is modelled as an insertion-ordered list of
  records (`Map.set` on an existing key replaces in place, otherwise appends),
  and the file read / `JSON.parse` outcome is an explicit `ReadOutcome`.
* `src/core/OpportunityDetector.ts` — the three scoring heuristics and the
  funnel/NPS detection loops.  JS `number` arithmetic is modelled over `ℚ`
  and `Math.round` as `⌊x + 1/2⌋` (JS rounds half-ups toward +∞).
* `src/OpportunityOS.ts` — the orchestrator (`handleOpportunityAction`,
  `promoteOpportunity`, `dismissOpportunity`, `investigateOpportunity`,
  `markAsShipped`).  Effects are modelled in a small state monad `M` over the
  store which also records a trace of collaborator invocations; the outcomes
  of the external collaborators (Slack, Kiro) are supplied by an `Env`.
  The `uuid` and wall-clock effects are passed in as explicit `now`
  parameters; logging is elided (it does not affect control flow).
-/

namespace OppOS

/-- The legal members of the TS `OpportunityStatus` string enum
(`Object.values(OpportunityStatus)`), in declaration order. -/
def statusValues : List String :=
  ["detected", "promoted", "dismissed", "investigating", "spec_generated", "shipped"]

/-- Evidence payload (`types.ts`): data source tag, named numeric metrics and
textual insights.  The `rawData` analytics snapshot is never inspected by any
of the modelled operations, so it is elided from the embedding. -/
structure Evidence where
  dataSource : String
  metrics : List (String × ℚ)
  insights : List String
deriving DecidableEq

/-- Post-ship impact record (`types.ts` `ActualImpact`). -/
structure ActualImpact where
  metricsBefore : List (String × ℚ)
  metricsAfter : List (String × ℚ)
  measuredAt : String
deriving DecidableEq

/-- The `Opportunity` record (`types.ts`).  `type` and `status` are the TS
string-enum values; `score` is a JS number, modelled as `ℚ`. -/
structure Opportunity where
  id : String
  type : String
  status : String
  score : ℚ
  title : String
  description : String
  evidence : Evidence
  createdAt : String
  updatedAt : String
  slackMessageTs : Option String := none
  specUrl : Option String := none
  actualImpact : Option ActualImpact := none
deriving DecidableEq

/-- Errors raised by the store and the orchestrator.  The TS code throws
generic `Error`s; the constructors here correspond to the distinct error
messages of the source. -/
inductive StoreErr where
  /-- Message "Invalid opportunity: missing or invalid id" -/
  | invalidId : StoreErr
  /-- Message "Invalid opportunity: invalid status ..." (also raised when `type` is falsy) -/
  | invalidStatus (status : String) : StoreErr
  /-- Message "Invalid opportunity: score must be between 0 and 100" -/
  | invalidScore : StoreErr
  /-- Message "Opportunity with id ... already exists" -/
  | alreadyExists (id : String) : StoreErr
  /-- Message "Opportunity with id ... not found" -/
  | notFound (id : String) : StoreErr
deriving DecidableEq

/-- The in-memory store contents: the insertion-ordered record list backing
the TS `Map<string, Opportunity>`. -/
abbrev Store := List Opportunity

/-- The `OpportunityStore.get` — `this.opportunities.get(id)`: the first (and,
by the create-once discipline, only) record keyed by `id`. -/
def Store.get : Store → String → Option Opportunity
  | [], _ => none
  | r :: rest, id => if r.id = id then some r else Store.get rest id

/-- The `Map.set` semantics: replace in place when the key is present, otherwise
append. -/
def Store.set (s : Store) (o : Opportunity) : Store :=
  if (s.get o.id).isSome then s.map (fun r => if r.id = o.id then o else r)
  else s ++ [o]

/-- The `OpportunityStore.validateOpportunity`, checks in source order:
falsy/non-string `id`; falsy `type` or `status` outside the enum;
non-number `score` or `score` outside `[0, 100]`. -/
def validateOpportunity (o : Opportunity) : Except StoreErr Unit :=
  if o.id = "" then .error .invalidId
  else if o.type = "" ∨ o.status ∉ statusValues then .error (.invalidStatus o.status)
  else if o.score < 0 ∨ 100 < o.score then .error .invalidScore
  else .ok ()

/-- The `OpportunityStore.create`: validate first, then fail on a duplicate id,
else insert and persist. -/
def Store.create (s : Store) (o : Opportunity) : Except StoreErr Store :=
  match validateOpportunity o with
  | .error e => .error e
  | .ok _ =>
    if (s.get o.id).isSome then .error (.alreadyExists o.id)
    else .ok (s ++ [o])

/-- The `Partial<Opportunity>` as passed to `OpportunityStore.update`: each field
may be present or absent.  The optional record fields become doubly optional. -/
structure OpportunityPatch where
  id : Option String := none
  type : Option String := none
  status : Option String := none
  score : Option ℚ := none
  title : Option String := none
  description : Option String := none
  evidence : Option Evidence := none
  createdAt : Option String := none
  updatedAt : Option String := none
  slackMessageTs : Option (Option String) := none
  specUrl : Option (Option String) := none
  actualImpact : Option (Option ActualImpact) := none
deriving DecidableEq

/-- The merge performed by `OpportunityStore.update`:
`{ ...existing, ...updates, id, updatedAt: new Date().toISOString() }`.
The spread order makes the patch's fields override the existing ones, after
which `id` is reset to the original key (so a patch can never change it) and
`updatedAt` is stamped with the current time (overriding any patched value). -/
def mergePatch (e : Opportunity) (p : OpportunityPatch) (now : String) : Opportunity where
  id := e.id
  type := p.type.getD e.type
  status := p.status.getD e.status
  score := p.score.getD e.score
  title := p.title.getD e.title
  description := p.description.getD e.description
  evidence := p.evidence.getD e.evidence
  createdAt := p.createdAt.getD e.createdAt
  updatedAt := now
  slackMessageTs := p.slackMessageTs.getD e.slackMessageTs
  specUrl := p.specUrl.getD e.specUrl
  actualImpact := p.actualImpact.getD e.actualImpact

/-- Replace the record stored under `id` (in place, preserving position),
i.e. `Map.set` on a present key. -/
def Store.replace (s : Store) (id : String) (m : Opportunity) : Store :=
  s.map (fun r => if r.id = id then m else r)

/-- The `OpportunityStore.update`: `NotFound` when absent; merge, stamp
`updatedAt`, validate (leaving the store untouched on failure), else store
and return the merged record. -/
def Store.update (s : Store) (id : String) (p : OpportunityPatch) (now : String) :
    Except StoreErr (Store × Opportunity) :=
  match s.get id with
  | none => .error (.notFound id)
  | some existing =>
    let updated := mergePatch existing p now
    match validateOpportunity updated with
    | .error e => .error e
    | .ok _ => .ok (s.replace id updated, updated)

/-- The `OpportunityStore.getAll` — insertion order. -/
def Store.getAll (s : Store) : List Opportunity := s

/-- The `OpportunityStore.getByStatus`. -/
def Store.getByStatus (s : Store) (status : String) : List Opportunity :=
  s.filter (fun o => o.status = status)

/-- The emptiness test of `OpportunityStore.load`
(`!data || data.trim() === \'\'`), which holds exactly when every character
of the contents is whitespace (in particular for the empty string).  It is
written as a direct character scan because `String.trim` is defined by
well-founded recursion, which the kernel cannot evaluate. -/
def isBlank (data : String) : Bool :=
  data.data.all Char.isWhitespace

/-- Outcome of `fs.readFile` + `JSON.parse` in `OpportunityStore.load`:
the file may be missing (`ENOENT`), or present with contents `data` whose
JSON parse either fails with a `SyntaxError` or yields a list of records. -/
inductive ReadOutcome where
  | missing : ReadOutcome
  | content (data : String) (parsed : Except Unit (List Opportunity)) : ReadOutcome

/-- The record-loading loop of `OpportunityStore.load`: validate each parsed
record (a validation failure escapes the loop) and `Map.set` it. -/
def loadRecords (acc : Store) : List Opportunity → Except StoreErr Store
  | [] => .ok acc
  | o :: rest =>
    match validateOpportunity o with
    | .error e => .error e
    | .ok _ => loadRecords (acc.set o) rest

/-- The `OpportunityStore.load`: a missing file (`ENOENT`) or empty contents start
fresh; a `SyntaxError` from `JSON.parse` is caught and starts fresh; a
successfully parsed record list is validated record by record, and a
validation error propagates. -/
def Store.load : ReadOutcome → Except StoreErr Store
  | .missing => .ok []
  | .content data parsed =>
    if isBlank data then .ok []
    else
      match parsed with
      | .error _ => .ok []
      | .ok records => loadRecords [] records

/-- The source method is `OpportunityStore.initialize` (first call; the name
is shortened here): ensure the directory exists
(a filesystem effect, elided), then `load`; any error from `load` is logged
and rethrown, aborting initialization. -/
def Store.init (r : ReadOutcome) : Except StoreErr Store :=
  Store.load r

/-- A store is well formed when every stored record passes validation —
the invariant maintained by `create`/`update`/`load`. -/
def StoreWF (s : Store) : Prop :=
  ∀ r ∈ s, validateOpportunity r = .ok ()

/-! ## Detector (`src/core/OpportunityDetector.ts`) -/

/-- JS `Math.round`: round half away from zero toward +∞, i.e. `⌊x + 1/2⌋`
for every real argument. -/
def jround (x : ℚ) : ℤ := ⌊x + 1 / 2⌋

/-- The `OpportunityDetector.calculateFunnelScore`:
`Math.round(Math.min(dropoffRate * 100, 70) + Math.min((userCount / 1000) * 30, 30))`. -/
def calculateFunnelScore (dropoffRate userCount : ℚ) : ℤ :=
  jround (min (dropoffRate * 100) 70 + min (userCount / 1000 * 30) 30)

/-- The `OpportunityDetector.calculateNPSScore`:
`Math.round(Math.max(0, (30 - npsScore) * 2) + Math.min((responseCount / 100) * 30, 30))`. -/
def calculateNPSScore (npsScore responseCount : ℚ) : ℤ :=
  jround (max 0 ((30 - npsScore) * 2) + min (responseCount / 100 * 30) 30)

/-- The `OpportunityDetector.calculateFeatureUsageScore`:
`Math.round((1 - usageRate) * 70 + Math.min((totalUsers / 1000) * 30, 30))`. -/
def calculateFeatureUsageScore (usageRate totalUsers : ℚ) : ℤ :=
  jround ((1 - usageRate) * 70 + min (totalUsers / 1000 * 30) 30)

/-- A funnel step (`types.ts` `FunnelStep`). -/
structure FunnelStep where
  stepName : String
  userCount : ℚ
  dropoffRate : ℚ
deriving DecidableEq

/-- Funnel analytics view (`types.ts` `FunnelData`; the date range is never
read by the detector and is elided). -/
structure FunnelData where
  funnelId : String
  funnelName : String
  steps : List FunnelStep
deriving DecidableEq

/-- NPS analytics view (`types.ts` `NPSData`); the per-response lists are only
used for the human-readable insight strings and are elided. -/
structure NPSData where
  score : ℚ
  responseCount : ℚ
deriving DecidableEq

/-- The deterministic payload of the `Opportunity` built by
`createFunnelOpportunity`: the source additionally wraps this in a record
with a fresh `uuidv4()` id, type `funnel_drop`, status `detected` and current
timestamps (effects abstracted here), and stores `dropoffRate`, `userCount`
and `stepIndex` in `evidence.metrics`. -/
structure FunnelCandidate where
  funnelId : String
  funnelName : String
  stepName : String
  stepIndex : ℕ
  dropoffRate : ℚ
  userCount : ℚ
  score : ℤ
deriving DecidableEq

/-- The indexed loop body of `detectFunnelOpportunities`
(`for (let i = 0; i < funnel.steps.length; i++)`): a step qualifies when
`dropoffRate > 0.3`, and its candidate is pushed only when the score reaches
the configured minimum. -/
def funnelStepCandidates (minScore : ℚ) (funnel : FunnelData) :
    ℕ → List FunnelStep → List FunnelCandidate
  | _, [] => []
  | i, step :: rest =>
    (if step.dropoffRate > 3 / 10 then
      if (calculateFunnelScore step.dropoffRate step.userCount : ℚ) ≥ minScore then
        [⟨funnel.funnelId, funnel.funnelName, step.stepName, i,
          step.dropoffRate, step.userCount,
          calculateFunnelScore step.dropoffRate step.userCount⟩]
      else []
    else []) ++ funnelStepCandidates minScore funnel (i + 1) rest

/-- The `OpportunityDetector.detectFunnelOpportunities` over all funnels, in
input order. -/
def detectFunnelOpportunities (minScore : ℚ) (funnels : List FunnelData) :
    List FunnelCandidate :=
  (funnels.map (fun f => funnelStepCandidates minScore f 0 f.steps)).flatten

/-- The deterministic payload of the `Opportunity` built by
`createNPSOpportunity` (uuid/timestamp effects abstracted as for funnels). -/
structure NPSCandidate where
  npsScore : ℚ
  responseCount : ℚ
  score : ℤ
deriving DecidableEq

/-- The `OpportunityDetector.detectNPSOpportunities`: a single aggregate signal,
considered only when `score < 30` and `responseCount >= 20`, emitted only
when the computed score reaches the configured minimum. -/
def detectNPSOpportunities (minScore : ℚ) (nps : NPSData) : List NPSCandidate :=
  if nps.score < 30 ∧ nps.responseCount ≥ 20 then
    let score := calculateNPSScore nps.score nps.responseCount
    if (score : ℚ) ≥ minScore then [⟨nps.score, nps.responseCount, score⟩] else []
  else []

/-! ## Orchestrator (`src/OpportunityOS.ts`)

The orchestrator mutates the store and invokes external collaborators.  It is
embedded in a state monad `M` over the `Store` that additionally records a
trace of collaborator invocations, so that "the collaborator was (not)
called" is observable.  The outcomes of the collaborator calls are supplied
by an `Env`; an exception in TS corresponds to `Except.error`, and — exactly
as with a mutable `this.store` — store mutations performed before the throw
survive it. -/

/-- The `kiro.generateSpec` request payload (`types.ts` `SpecGenerationRequest`). -/
structure SpecGenerationRequest where
  opportunityId : String
  title : String
  description : String
  evidence : Evidence
deriving DecidableEq

/-- The `kiro.generateSpec` response (`types.ts` `SpecGenerationResponse`). -/
structure SpecGenerationResponse where
  specUrl : String
  generatedAt : String
deriving DecidableEq

/-- Orchestrator-level errors: a store error, a collaborator failure
(the message of the thrown `Error`), or `markAsShipped`'s own
"Opportunity ... not found". -/
inductive OsErr where
  | store (e : StoreErr) : OsErr
  | collab (msg : String) : OsErr
  | notFoundOpp (id : String) : OsErr
deriving DecidableEq

/-- Observable collaborator invocations. -/
inductive Event where
  /-- The `slack.updateOpportunity(ts, record)` was called. -/
  | slackUpdated (ts : String) : Event
  /-- The `kiro.generateSpec` was called for this opportunity. -/
  | specRequested (opportunityId : String) : Event
  /-- The `kiro.provideFeedback` was called for this opportunity. -/
  | feedbackSent (opportunityId : String) : Event
deriving DecidableEq

/-- Outcomes of the external collaborator calls.  `provideFeedback` receives
the rating and the after-metrics (`{ rating, actualImpact }`). -/
structure Env where
  slackUpdate : String → Opportunity → Except String Unit
  generateSpec : SpecGenerationRequest → Except String SpecGenerationResponse
  provideFeedback : String → ℚ → List (String × ℚ) → Except String Unit

/-- Store-state + collaborator-trace + exception monad. -/
def M (α : Type) : Type := Store → Store × List Event × Except OsErr α

/-- The `pure` for `M`. -/
def M.pure (a : α) : M α := fun s => (s, [], .ok a)

/-- The `bind` for `M`: an error short-circuits, keeping the store state and the
trace accumulated so far. -/
def M.bind (x : M α) (f : α → M β) : M β := fun s =>
  match x s with
  | (s1, t, .error e) => (s1, t, .error e)
  | (s1, t, .ok a) =>
    match f a s1 with
    | (s2, t2, r) => (s2, t ++ t2, r)

/-- The `throw` for `M`. -/
def M.throw (e : OsErr) : M α := fun s => (s, [], .error e)

/-- The `try { x } catch (e) { h e }`: the handler runs from the state and trace
the failed body left behind. -/
def M.tryCatch (x : M α) (h : OsErr → M α) : M α := fun s =>
  match x s with
  | (s1, t, .error e) =>
    match h e s1 with
    | (s2, t2, r) => (s2, t ++ t2, r)
  | r => r

/-- The `this.store.get(id)` inside the orchestrator. -/
def M.storeGet (id : String) : M (Option Opportunity) := fun s =>
  (s, [], .ok (s.get id))

/-- The `await this.store.update(id, patch)`: mutates the store on success,
leaves it unchanged and throws on failure. -/
def M.storeUpdate (id : String) (p : OpportunityPatch) (now : String) :
    M Opportunity := fun s =>
  match Store.update s id p now with
  | .error e => (s, [], .error (.store e))
  | .ok (s1, updated) => (s1, [], .ok updated)

/-- The `await this.slack.updateOpportunity(ts, record)`. -/
def M.callSlackUpdate (env : Env) (ts : String) (o : Opportunity) : M Unit := fun s =>
  (s, [.slackUpdated ts],
    match env.slackUpdate ts o with
    | .ok _ => .ok ()
    | .error msg => .error (.collab msg))

/-- The `await this.kiro.generateSpec(request)`. -/
def M.callGenerateSpec (env : Env) (req : SpecGenerationRequest) :
    M SpecGenerationResponse := fun s =>
  (s, [.specRequested req.opportunityId],
    match env.generateSpec req with
    | .ok resp => .ok resp
    | .error msg => .error (.collab msg))

/-- The `await this.kiro.provideFeedback(id, { rating: 5, actualImpact })`. -/
def M.callFeedback (env : Env) (id : String) (impact : List (String × ℚ)) :
    M Unit := fun s =>
  (s, [.feedbackSent id],
    match env.provideFeedback id 5 impact with
    | .ok _ => .ok ()
    | .error msg => .error (.collab msg))

/-- The `if (record.slackMessageTs) await this.slack.updateOpportunity(...)` —
note the JS truthiness test: an empty-string timestamp is skipped too. -/
def slackUpdateIfTs (env : Env) (o : Opportunity) : M Unit :=
  match o.slackMessageTs with
  | some ts => if ts = "" then M.pure () else M.callSlackUpdate env ts o
  | none => M.pure ()

/-- The patch `{ status }`. -/
def statusPatch (status : String) : OpportunityPatch := { status := some status }

/-- The `generateSpec` request built by `promoteOpportunity`. -/
def specRequestOf (o : Opportunity) : SpecGenerationRequest :=
  ⟨o.id, o.title, o.description, o.evidence⟩

/-- The `OpportunityOS.promoteOpportunity`: set status `promoted`, refresh the
Slack message, then *unconditionally* attempt spec generation via Kiro
(the `autoGenerateSpecs` configuration flag is never consulted here); on any
failure inside the `try` block, revert the status to `promoted` and rethrow. -/
def promoteOpportunity (env : Env) (now : String) (opp : Opportunity) : M Unit :=
  M.bind (M.storeUpdate opp.id (statusPatch "promoted") now) fun updated =>
  M.bind (slackUpdateIfTs env updated) fun _ =>
  M.tryCatch
    (M.bind (M.callGenerateSpec env (specRequestOf opp)) fun spec =>
     M.bind (M.storeUpdate opp.id
       { status := some "spec_generated", specUrl := some (some spec.specUrl) } now)
       fun withSpec =>
     slackUpdateIfTs env withSpec)
    (fun e =>
      M.bind (M.storeUpdate opp.id (statusPatch "promoted") now) fun _ =>
      M.throw e)

/-- The `OpportunityOS.dismissOpportunity`. -/
def dismissOpportunity (env : Env) (now : String) (opp : Opportunity) : M Unit :=
  M.bind (M.storeUpdate opp.id (statusPatch "dismissed") now) fun updated =>
  slackUpdateIfTs env updated

/-- The `OpportunityOS.investigateOpportunity`. -/
def investigateOpportunity (env : Env) (now : String) (opp : Opportunity) : M Unit :=
  M.bind (M.storeUpdate opp.id (statusPatch "investigating") now) fun updated =>
  slackUpdateIfTs env updated

/-- The Slack action vocabulary. -/
inductive OpportunityAction where
  | promote | dismiss | investigate
deriving DecidableEq

/-- The `OpportunityOS.handleOpportunityAction`: look the opportunity up (a miss
is logged and swallowed — the handler returns normally), then dispatch on the
action.  No validation of the action against the current status is performed.
The surrounding `try/catch` only logs and rethrows, so it is elided. -/
def handleOpportunityAction (env : Env) (now : String) (id : String)
    (action : OpportunityAction) : M Unit :=
  M.bind (M.storeGet id) fun found =>
  match found with
  | none => M.pure ()
  | some opp =>
    match action with
    | .promote => promoteOpportunity env now opp
    | .dismiss => dismissOpportunity env now opp
    | .investigate => investigateOpportunity env now opp

/-- The impact argument of `markAsShipped`. -/
structure ImpactInput where
  metricsBefore : List (String × ℚ)
  metricsAfter : List (String × ℚ)
deriving DecidableEq

/-- The `OpportunityOS.markAsShipped`: throw when the opportunity is absent, then
set status `shipped` with the stamped impact record — the current status is
*not* checked — refresh Slack, and send Kiro feedback when the (pre-update)
record has a truthy `specUrl`. -/
def markAsShipped (env : Env) (now : String) (id : String)
    (impact : ImpactInput) : M Unit :=
  M.bind (M.storeGet id) fun found =>
  match found with
  | none => M.throw (.notFoundOpp id)
  | some opp =>
    M.bind (M.storeUpdate id
      { status := some "shipped",
        actualImpact := some (some ⟨impact.metricsBefore, impact.metricsAfter, now⟩) }
      now) fun updated =>
    M.bind (slackUpdateIfTs env updated) fun _ =>
    match opp.specUrl with
    | some u => if u = "" then M.pure () else M.callFeedback env id impact.metricsAfter
    | none => M.pure ()

/-- The `ConfigurationManager.validateAndNormalize`, the `autoGenerateSpecs`
default: `config.autoGenerateSpecs ?? false` — manual approval by default. -/
def normalizeAutoGenerateSpecs (configured : Option Bool) : Bool :=
  configured.getD false

/-! ## Concrete fixtures used to evaluate the model -/

/-- Decidable equality of `Except` results, for evaluating runs. -/
instance instDecEqExcept {ε α : Type} [DecidableEq ε] [DecidableEq α] :
    DecidableEq (Except ε α)
  | .ok a, .ok b =>
    if h : a = b then .isTrue (by rw [h])
    else .isFalse (by intro c; cases c; exact h rfl)
  | .ok _, .error _ => .isFalse (by intro c; cases c)
  | .error _, .ok _ => .isFalse (by intro c; cases c)
  | .error e, .error f =>
    if h : e = f then .isTrue (by rw [h])
    else .isFalse (by intro c; cases c; exact h rfl)

/-- Sample evidence payload. -/
def sampleEvidence : Evidence :=
  ⟨"userpilot", [("userCount", 900), ("stepIndex", 0)], ["45.0% dropoff at step 1"]⟩

/-- A stored opportunity with the given status (fields as a funnel candidate
would be persisted). -/
def oppWithStatus (status : String) : Opportunity :=
  { id := "opp-1", type := "funnel_drop", status := status, score := 72,
    title := "High Dropoff in Checkout - Payment",
    description := "Users are dropping off at Payment.",
    evidence := sampleEvidence,
    createdAt := "2024-01-01T00:00:00Z", updatedAt := "2024-01-01T00:00:00Z",
    slackMessageTs := some "1700000000.000100" }

/-- An environment in which every collaborator call succeeds. -/
def okEnv : Env :=
  { slackUpdate := fun _ _ => .ok (),
    generateSpec := fun _ => .ok ⟨"https://kiro.ai/specs/opp-1", "2024-01-02T00:00:00Z"⟩,
    provideFeedback := fun _ _ _ => .ok () }

/-- An environment in which `kiro.generateSpec` throws. -/
def genFailEnv : Env :=
  { okEnv with generateSpec := fun _ => .error "Kiro API error" }

/-- A sample impact payload for `markAsShipped`. -/
def sampleImpact : ImpactInput :=
  ⟨[("conversionPct", 22)], [("conversionPct", 31)]⟩

/-- The record `createNPSOpportunity` builds for the aggregate NPS signal
`score = -20, responseCount = 100` (uuid/timestamps fixed arbitrarily):
its score is `calculateNPSScore (-20) 100 = 130`. -/
def npsOpp130 : Opportunity :=
  { id := "9b1deb4d-3b7d-4bad-9bdd-2b0d7b3dcb6d", type := "low_nps",
    status := "detected", score := 130,
    title := "Low NPS Score: -20",
    description := "Product has a low NPS score of -20 with 60 detractors.",
    evidence := ⟨"userpilot", [("npsScore", -20), ("responseCount", 100)],
      ["NPS score of -20 (below 30 threshold)"]⟩,
    createdAt := "2024-01-01T00:00:00Z", updatedAt := "2024-01-01T00:00:00Z" }

/-- A one-step funnel exhibiting the spec's concrete scenario:
`dropoffRate = 0.45`, `userCount = 900`. -/
def demoFunnel : FunnelData :=
  ⟨"funnel-1", "Checkout", [⟨"Payment", 900, 45 / 100⟩]⟩

/-- The candidate the detector emits for `demoFunnel`. -/
def demoCandidate : FunnelCandidate :=
  ⟨"funnel-1", "Checkout", "Payment", 0, 45 / 100, 900, 72⟩

/-! ## Store lemmas -/

theorem mem_of_get {s : Store} {id : String} {r : Opportunity}
    (h : s.get id = some r) : r ∈ s := by
  induction s with
  | nil => simp [Store.get] at h
  | cons a t ih =>
    by_cases ha : a.id = id
    · simp only [Store.get, if_pos ha, Option.some.injEq] at h
      exact h ▸ List.mem_cons_self a t
    · simp only [Store.get, if_neg ha] at h
      exact List.mem_cons_of_mem a (ih h)

theorem id_of_get {s : Store} {id : String} {r : Opportunity}
    (h : s.get id = some r) : r.id = id := by
  induction s with
  | nil => simp [Store.get] at h
  | cons a t ih =>
    by_cases ha : a.id = id
    · simp only [Store.get, if_pos ha, Option.some.injEq] at h
      exact h ▸ ha
    · simp only [Store.get, if_neg ha] at h
      exact ih h

theorem replace_get {s : Store} {id : String} {r : Opportunity} (m : Opportunity)
    (h : s.get id = some r) (hm : m.id = id) :
    (s.replace id m).get id = some m := by
  induction s with
  | nil => simp [Store.get] at h
  | cons a t ih =>
    by_cases ha : a.id = id
    · simp [Store.replace, Store.get, ha, hm]
    · simp only [Store.get, if_neg ha] at h
      simp only [Store.replace, List.map_cons, if_neg ha]
      simpa [Store.get, if_neg ha] using ih h

theorem get_append_of_none {s : Store} {id : String} (o : Opportunity)
    (h : s.get id = none) (ho : o.id = id) : (s ++ [o]).get id = some o := by
  induction s with
  | nil => simp [Store.get, ho]
  | cons a t ih =>
    by_cases ha : a.id = id
    · simp [Store.get, if_pos ha] at h
    · simp only [Store.get, if_neg ha] at h
      simpa [Store.get, if_neg ha] using ih h

theorem get_none_iff {s : Store} {id : String} :
    s.get id = none ↔ ∀ r ∈ s, r.id ≠ id := by
  induction s with
  | nil => simp [Store.get]
  | cons a t ih =>
    by_cases ha : a.id = id
    · simp [Store.get, if_pos ha, ha]
    · simp [Store.get, if_neg ha, ha, ih]

theorem validate_ok_iff (o : Opportunity) :
    validateOpportunity o = .ok () ↔
      (o.id ≠ "" ∧ o.type ≠ "" ∧ o.status ∈ statusValues ∧
        0 ≤ o.score ∧ o.score ≤ 100) := by
  unfold validateOpportunity
  split_ifs with h1 h2 h3
  · simp [h1]
  · rcases h2 with h2 | h2 <;> simp [h2]
  · rcases h3 with h3 | h3
    · constructor
      · intro h; cases h
      · rintro ⟨-, -, -, h4, -⟩; exact absurd h3 (not_lt.mpr h4)
    · constructor
      · intro h; cases h
      · rintro ⟨-, -, -, -, h5⟩; exact absurd h3 (not_lt.mpr h5)
  · push_neg at h2 h3
    simp [h1, h2.1, h2.2, h3.1, h3.2]

theorem validate_merge_status {r : Opportunity} {p : OpportunityPatch} {now st : String}
    (hr : validateOpportunity r = .ok ())
    (htype : p.type = none) (hscore : p.score = none)
    (hstatus : p.status = some st) (hst : st ∈ statusValues) :
    validateOpportunity (mergePatch r p now) = .ok () := by
  rw [validate_ok_iff] at hr ⊢
  obtain ⟨h1, h2, _, h4, h5⟩ := hr
  exact ⟨by simpa [mergePatch] using h1, by simpa [mergePatch, htype] using h2,
    by simpa [mergePatch, hstatus] using hst, by simpa [mergePatch, hscore] using h4,
    by simpa [mergePatch, hscore] using h5⟩

theorem update_ok {s : Store} {id : String} {r : Opportunity} {p : OpportunityPatch}
    {now : String} (hget : s.get id = some r)
    (hval : validateOpportunity (mergePatch r p now) = .ok ()) :
    Store.update s id p now =
      .ok (s.replace id (mergePatch r p now), mergePatch r p now) := by
  unfold Store.update
  rw [hget]
  simp [hval]

theorem update_notFound {s : Store} {id : String} {p : OpportunityPatch} {now : String}
    (h : s.get id = none) : Store.update s id p now = .error (.notFound id) := by
  unfold Store.update
  rw [h]

theorem update_invalid {s : Store} {id : String} {r : Opportunity} {p : OpportunityPatch}
    {now : String} {e : StoreErr} (hget : s.get id = some r)
    (hval : validateOpportunity (mergePatch r p now) = .error e) :
    Store.update s id p now = .error e := by
  unfold Store.update
  rw [hget]
  simp [hval]

theorem loadRecords_error :
    ∀ (recs : List Opportunity) (acc : Store),
      (∃ r ∈ recs, validateOpportunity r ≠ .ok ()) →
      ∃ e, loadRecords acc recs = .error e := by
  intro recs
  induction recs with
  | nil => rintro acc ⟨r, hr, -⟩; simp at hr
  | cons o rest ih =>
    rintro acc ⟨r, hr, hbad⟩
    cases hv : validateOpportunity o with
    | error e => exact ⟨e, by simp [loadRecords, hv]⟩
    | ok u =>
      rcases List.mem_cons.mp hr with rfl | hr2
      · cases u; exact absurd hv hbad
      · obtain ⟨e, he⟩ := ih (acc.set o) ⟨r, hr2, hbad⟩
        exact ⟨e, by simp [loadRecords, hv, he]⟩

/-! ## Detector lemmas -/

theorem funnelStepCandidates_mem (m : ℚ) (f : FunnelData) :
    ∀ (steps : List FunnelStep) (i : ℕ) (c : FunnelCandidate),
      c ∈ funnelStepCandidates m f i steps ↔
        ∃ j step, steps[j]? = some step ∧ step.dropoffRate > 3 / 10 ∧
          (calculateFunnelScore step.dropoffRate step.userCount : ℚ) ≥ m ∧
          c = ⟨f.funnelId, f.funnelName, step.stepName, i + j, step.dropoffRate,
               step.userCount, calculateFunnelScore step.dropoffRate step.userCount⟩ := by
  intro steps
  induction steps with
  | nil => intro i c; simp [funnelStepCandidates]
  | cons step rest ih =>
    intro i c
    simp only [funnelStepCandidates, List.mem_append]
    constructor
    · intro h
      rcases h with h | h
      · by_cases hA : step.dropoffRate > 3 / 10
        · rw [if_pos hA] at h
          by_cases hB : (calculateFunnelScore step.dropoffRate step.userCount : ℚ) ≥ m
          · rw [if_pos hB] at h
            simp only [List.mem_singleton] at h
            exact ⟨0, step, by simp, hA, hB, by simpa using h⟩
          · rw [if_neg hB] at h; simp at h
        · rw [if_neg hA] at h; simp at h
      · obtain ⟨j, st2, hj, hd, hs, hc⟩ := (ih (i + 1) c).mp h
        refine ⟨j + 1, st2, by simpa using hj, hd, hs, ?_⟩
        have harith : i + 1 + j = i + (j + 1) := by omega
        rw [harith] at hc
        exact hc
    · rintro ⟨j, st2, hj, hd, hs, hc⟩
      cases j with
      | zero =>
        simp only [List.getElem?_cons_zero, Option.some.injEq] at hj
        subst hj
        left
        rw [if_pos hd, if_pos hs]
        simp only [List.mem_singleton]
        simpa using hc
      | succ j =>
        right
        refine (ih (i + 1) c).mpr ⟨j, st2, by simpa using hj, hd, hs, ?_⟩
        have harith : i + 1 + j = i + (j + 1) := by omega
        rw [harith]
        exact hc

theorem detectFunnel_mem (m : ℚ) (funnels : List FunnelData) (c : FunnelCandidate) :
    c ∈ detectFunnelOpportunities m funnels ↔
      ∃ f ∈ funnels, c ∈ funnelStepCandidates m f 0 f.steps := by
  simp only [detectFunnelOpportunities, List.mem_flatten, List.mem_map]
  constructor
  · rintro ⟨l, ⟨f, hf, rfl⟩, hc⟩
    exact ⟨f, hf, hc⟩
  · rintro ⟨f, hf, hc⟩
    exact ⟨funnelStepCandidates m f 0 f.steps, ⟨f, hf, rfl⟩, hc⟩

theorem calcFunnelScore_demo : calculateFunnelScore (45 / 100) 900 = 72 := by
  norm_num [calculateFunnelScore, jround]

theorem jround_bounds (lo hi x : ℚ) (h0 : lo ≤ x) (h1 : x ≤ hi) :
    ⌊lo + 1 / 2⌋ ≤ jround x ∧ jround x ≤ ⌊hi + 1 / 2⌋ := by
  unfold jround
  constructor <;> apply Int.floor_le_floor <;> linarith

theorem calculateFunnelScore_bounds (d u : ℚ) (hd0 : 0 ≤ d) (hu : 0 ≤ u) :
    0 ≤ calculateFunnelScore d u ∧ calculateFunnelScore d u ≤ 100 := by
  unfold calculateFunnelScore
  have h1 : (0 : ℚ) ≤ min (d * 100) 70 := le_min (by linarith) (by norm_num)
  have h2 : (0 : ℚ) ≤ min (u / 1000 * 30) 30 := le_min (by positivity) (by norm_num)
  have h3 : min (d * 100) 70 ≤ 70 := min_le_right _ _
  have h4 : min (u / 1000 * 30) 30 ≤ 30 := min_le_right _ _
  have := jround_bounds 0 100
    (min (d * 100) 70 + min (u / 1000 * 30) 30) (by linarith) (by linarith)
  constructor
  · calc (0 : ℤ) = ⌊(0 : ℚ) + 1 / 2⌋ := by norm_num
    _ ≤ _ := this.1
  · calc jround _ ≤ ⌊(100 : ℚ) + 1 / 2⌋ := this.2
    _ = 100 := by norm_num

theorem calculateFeatureUsageScore_bounds (r u : ℚ) (hr0 : 0 ≤ r) (hr1 : r ≤ 1)
    (hu : 0 ≤ u) :
    0 ≤ calculateFeatureUsageScore r u ∧ calculateFeatureUsageScore r u ≤ 100 := by
  unfold calculateFeatureUsageScore
  have h1 : (0 : ℚ) ≤ (1 - r) * 70 := by nlinarith
  have h3 : (1 - r) * 70 ≤ 70 := by nlinarith
  have h2 : (0 : ℚ) ≤ min (u / 1000 * 30) 30 := le_min (by positivity) (by norm_num)
  have h4 : min (u / 1000 * 30) 30 ≤ 30 := min_le_right _ _
  have := jround_bounds 0 100
    ((1 - r) * 70 + min (u / 1000 * 30) 30) (by linarith) (by linarith)
  constructor
  · calc (0 : ℤ) = ⌊(0 : ℚ) + 1 / 2⌋ := by norm_num
    _ ≤ _ := this.1
  · calc calculateFeatureUsageScore r u ≤ ⌊(100 : ℚ) + 1 / 2⌋ := this.2
    _ = 100 := by norm_num

theorem calculateNPSScore_nonneg (s u : ℚ) (hu : 0 ≤ u) :
    0 ≤ calculateNPSScore s u := by
  unfold calculateNPSScore
  have h1 : (0 : ℚ) ≤ max 0 ((30 - s) * 2) := le_max_left _ _
  have h2 : (0 : ℚ) ≤ min (u / 100 * 30) 30 := le_min (by positivity) (by norm_num)
  calc (0 : ℤ) = ⌊(0 : ℚ) + 1 / 2⌋ := by norm_num
  _ ≤ jround _ := (jround_bounds 0 (max 0 ((30 - s) * 2) + min (u / 100 * 30) 30)
      (max 0 ((30 - s) * 2) + min (u / 100 * 30) 30) (by linarith) (by linarith)).1

theorem calculateNPSScore_le_100_of_ge (s u : ℚ) (hs : -5 ≤ s) :
    calculateNPSScore s u ≤ 100 := by
  unfold calculateNPSScore
  have h1 : max 0 ((30 - s) * 2) ≤ 70 := max_le (by norm_num) (by linarith)
  have h2 : min (u / 100 * 30) 30 ≤ 30 := min_le_right _ _
  calc jround _ ≤ ⌊(100 : ℚ) + 1 / 2⌋ :=
      (jround_bounds (max 0 ((30 - s) * 2) + min (u / 100 * 30) 30) 100
        (max 0 ((30 - s) * 2) + min (u / 100 * 30) 30) le_rfl (by linarith)).2
  _ = 100 := by norm_num

/-! ## Monad-run lemmas -/

theorem slackUpdateIfTs_ok (env : Env) (o : Opportunity) (s : Store)
    (hslack : ∀ ts o2, env.slackUpdate ts o2 = .ok ()) :
    ∃ t, slackUpdateIfTs env o s = (s, t, .ok ()) := by
  unfold slackUpdateIfTs
  cases o.slackMessageTs with
  | none => exact ⟨[], rfl⟩
  | some ts =>
    by_cases hts : ts = ""
    · exact ⟨[], by simp [hts, M.pure]⟩
    · exact ⟨[.slackUpdated ts], by simp [hts, M.callSlackUpdate, hslack]⟩

theorem status_promoted_mem : "promoted" ∈ statusValues := by decide

/-! ## Claims -/

/-- C1: the claim states that `handleOpportunityAction` succeeds exactly for
status `detected` and fails with `IllegalTransition` otherwise.  The code
performs no status validation at all: for a stored opportunity in *every*
status of the enum, every one of the three actions completes without error,
and the double-click scenario (a second `promote` on an already-`promoted`
opportunity) not only succeeds but re-runs spec generation and moves the
record to `spec_generated`. -/
theorem c1_handleAction_ignores_status :
    (∀ st ∈ statusValues,
      (handleOpportunityAction okEnv "2024-01-02T00:00:00Z" "opp-1" .promote
          [oppWithStatus st]).2.2 = .ok () ∧
      (handleOpportunityAction okEnv "2024-01-02T00:00:00Z" "opp-1" .dismiss
          [oppWithStatus st]).2.2 = .ok () ∧
      (handleOpportunityAction okEnv "2024-01-02T00:00:00Z" "opp-1" .investigate
          [oppWithStatus st]).2.2 = .ok ()) ∧
    ((handleOpportunityAction okEnv "2024-01-02T00:00:00Z" "opp-1" .promote
        [oppWithStatus "promoted"]).1.get "opp-1").map (fun r => r.status) =
      some "spec_generated" := by
  exact ⟨by decide, by decide⟩

/-- C1 witness: the promote action on an already-`promoted` opportunity
(a status outside the claimed legal source set) completes without error. -/
theorem c1_witness :
    (handleOpportunityAction okEnv "2024-01-02T00:00:00Z" "opp-1" .promote
        [oppWithStatus "promoted"]).2.2 = .ok () :=
  (c1_handleAction_ignores_status.1 "promoted" (by decide)).1

/-- C2: the claim states that `markAsShipped` succeeds exactly from status
`spec-generated` and fails with `IllegalTransition` otherwise.  The code
never checks the current status: from every status of the enum the call
completes without error and the record ends in status `shipped`. -/
theorem c2_markAsShipped_ignores_status :
    ∀ st ∈ statusValues,
      (markAsShipped okEnv "2024-01-03T00:00:00Z" "opp-1" sampleImpact
          [oppWithStatus st]).2.2 = .ok () ∧
      ((markAsShipped okEnv "2024-01-03T00:00:00Z" "opp-1" sampleImpact
          [oppWithStatus st]).1.get "opp-1").map (fun r => r.status) =
        some "shipped" := by
  decide

/-- C2 witness: marking a freshly `detected` opportunity as shipped — a
direct `detected → shipped` jump — succeeds. -/
theorem c2_witness :
    (markAsShipped okEnv "2024-01-03T00:00:00Z" "opp-1" sampleImpact
        [oppWithStatus "detected"]).2.2 = .ok () :=
  (c2_markAsShipped_ignores_status "detected" (by decide)).1

/-- C3: the claim states that all three detector scores lie in [0,100] for
valid inputs (NPS aggregate in [-100,100], response count ≥ 0).  For the NPS
detector this fails: at aggregate score −20 with 100 responses the score is
130, the detector emits a candidate carrying it (the gate `score < 30 ∧
responseCount ≥ 20` does not prevent it), and the resulting record is
rejected by the store's own validation, which demands score ∈ [0,100]. -/
theorem c3_nps_score_exceeds_bounds :
    calculateNPSScore (-20) 100 = 130 ∧
    detectNPSOpportunities 60 ⟨-20, 100⟩ = [⟨-20, 100, 130⟩] ∧
    validateOpportunity npsOpp130 = .error .invalidScore := by
  have h : calculateNPSScore (-20) 100 = 130 := by
    norm_num [calculateNPSScore, jround]
  have hgate : ((-20 : ℚ) < 30 ∧ (100 : ℚ) ≥ 20) := by norm_num
  refine ⟨h, ?_, by decide⟩
  simp only [detectNPSOpportunities, if_pos hgate, h]
  norm_num

/-- C4: with `autoGenerateSpecs` left unconfigured the normalized default is
`false` (manual approval), yet `promoteOpportunity` never consults the flag:
promoting a `detected` opportunity invokes the Kiro spec-generation
collaborator and, on success, leaves the record at `spec_generated` with
`specUrl` set — not at `promoted` with `specUrl` unset as the claim (and the
repository's own `AUTO_SPEC_GENERATION.md`) require. -/
theorem c4_promote_always_generates_spec :
    normalizeAutoGenerateSpecs none = false ∧
    Event.specRequested "opp-1" ∈
      (handleOpportunityAction okEnv "2024-01-02T00:00:00Z" "opp-1" .promote
          [oppWithStatus "detected"]).2.1 ∧
    ((handleOpportunityAction okEnv "2024-01-02T00:00:00Z" "opp-1" .promote
        [oppWithStatus "detected"]).1.get "opp-1").map
      (fun r => (r.status, r.specUrl)) =
      some ("spec_generated", some "https://kiro.ai/specs/opp-1") := by
  exact ⟨rfl, by decide, by decide⟩

/-- C5: when the spec-generation collaborator throws during a promote, the
record ends stored with status `promoted` (the compensating update), its
`specUrl` is untouched (in particular it stays unset), and the collaborator's
error propagates to the caller of the promote action. -/
theorem c5_spec_failure_reverts_to_promoted (env : Env) (now : String) (s : Store)
    (opp : Opportunity) (msg : String)
    (hwf : StoreWF s) (hget : s.get opp.id = some opp)
    (hslack : ∀ ts o, env.slackUpdate ts o = .ok ())
    (hgen : env.generateSpec (specRequestOf opp) = .error msg) :
    (handleOpportunityAction env now opp.id .promote s).2.2 = .error (.collab msg) ∧
    ((handleOpportunityAction env now opp.id .promote s).1.get opp.id).map
      (fun r => r.status) = some "promoted" ∧
    ((handleOpportunityAction env now opp.id .promote s).1.get opp.id).map
      (fun r => r.specUrl) = some opp.specUrl := by
  have hval : validateOpportunity opp = .ok () := hwf opp (mem_of_get hget)
  have hm1 : validateOpportunity (mergePatch opp (statusPatch "promoted") now) = .ok () :=
    validate_merge_status hval rfl rfl rfl status_promoted_mem
  have hup1 : Store.update s opp.id (statusPatch "promoted") now =
      .ok (s.replace opp.id (mergePatch opp (statusPatch "promoted") now),
           mergePatch opp (statusPatch "promoted") now) := update_ok hget hm1
  have hget1 : (s.replace opp.id (mergePatch opp (statusPatch "promoted") now)).get opp.id =
      some (mergePatch opp (statusPatch "promoted") now) :=
    replace_get _ hget rfl
  have hm2 : validateOpportunity
      (mergePatch (mergePatch opp (statusPatch "promoted") now) (statusPatch "promoted") now) =
      .ok () := validate_merge_status hm1 rfl rfl rfl status_promoted_mem
  have hup2 : Store.update (s.replace opp.id (mergePatch opp (statusPatch "promoted") now))
      opp.id (statusPatch "promoted") now =
      .ok ((s.replace opp.id (mergePatch opp (statusPatch "promoted") now)).replace opp.id
             (mergePatch (mergePatch opp (statusPatch "promoted") now)
               (statusPatch "promoted") now),
           mergePatch (mergePatch opp (statusPatch "promoted") now)
             (statusPatch "promoted") now) :=
    update_ok hget1 hm2
  obtain ⟨t1, hslackrun⟩ := slackUpdateIfTs_ok env
    (mergePatch opp (statusPatch "promoted") now)
    (s.replace opp.id (mergePatch opp (statusPatch "promoted") now)) hslack
  have hget2 : ((s.replace opp.id (mergePatch opp (statusPatch "promoted") now)).replace opp.id
      (mergePatch (mergePatch opp (statusPatch "promoted") now)
        (statusPatch "promoted") now)).get opp.id =
      some (mergePatch (mergePatch opp (statusPatch "promoted") now)
        (statusPatch "promoted") now) :=
    replace_get _ hget1 rfl
  have hrun : handleOpportunityAction env now opp.id .promote s =
      ((s.replace opp.id (mergePatch opp (statusPatch "promoted") now)).replace opp.id
         (mergePatch (mergePatch opp (statusPatch "promoted") now)
           (statusPatch "promoted") now),
       t1 ++ [Event.specRequested opp.id], .error (.collab msg)) := by
    simp only [handleOpportunityAction, promoteOpportunity, M.bind, M.storeGet, M.storeUpdate,
      M.tryCatch, M.callGenerateSpec, M.throw, hget, hup1, hslackrun, hup2, hgen,
      List.nil_append, List.append_nil]
    simp [specRequestOf]
  rw [hrun]
  refine ⟨rfl, ?_, ?_⟩
  · rw [hget2]; simp [mergePatch, statusPatch]
  · rw [hget2]; simp [mergePatch, statusPatch]

/-- C5 witness: a concrete failing promote — a single `detected` opportunity,
a Slack collaborator that succeeds and a Kiro collaborator that throws — ends
with the record at `promoted`, `specUrl` still unset, and the error
propagated. -/
theorem c5_witness :
    (handleOpportunityAction genFailEnv "2024-01-02T00:00:00Z" "opp-1" .promote
        [oppWithStatus "detected"]).2.2 = .error (.collab "Kiro API error") ∧
    ((handleOpportunityAction genFailEnv "2024-01-02T00:00:00Z" "opp-1" .promote
        [oppWithStatus "detected"]).1.get "opp-1").map (fun r => r.status) =
      some "promoted" ∧
    ((handleOpportunityAction genFailEnv "2024-01-02T00:00:00Z" "opp-1" .promote
        [oppWithStatus "detected"]).1.get "opp-1").map (fun r => r.specUrl) =
      some none :=
  c5_spec_failure_reverts_to_promoted genFailEnv "2024-01-02T00:00:00Z"
    [oppWithStatus "detected"] (oppWithStatus "detected") "Kiro API error"
    (by intro r hr; rw [List.mem_singleton] at hr; subst hr; decide)
    (by decide) (fun _ _ => rfl) rfl

/-- C6: store initialization — a missing backing file yields an empty store;
file contents that are blank yield an empty store regardless of how they
would parse; contents whose top-level JSON parse fails with a `SyntaxError`
also yield an empty store; but contents that parse successfully to a record
list containing at least one record failing structural validation make
`initialize` raise, aborting initialization. -/
theorem c6_initialize_error_policy :
    Store.init .missing = .ok [] ∧
    (∀ (data : String) (parsed : Except Unit (List Opportunity)),
      isBlank data = true → Store.init (.content data parsed) = .ok []) ∧
    (∀ data : String, isBlank data = false →
      Store.init (.content data (.error ())) = .ok []) ∧
    (∀ (data : String) (records : List Opportunity), isBlank data = false →
      (∃ r ∈ records, validateOpportunity r ≠ .ok ()) →
      ∃ e, Store.init (.content data (.ok records)) = .error e) := by
  refine ⟨rfl, ?_, ?_, ?_⟩
  · intro data parsed h
    simp [Store.init, Store.load, h]
  · intro data h
    simp [Store.init, Store.load, h]
  · intro data records h hbad
    simpa [Store.init, Store.load, h] using loadRecords_error records [] hbad

/-- C6 witness: a blank file starts empty, a corrupt (unparseable) file
starts empty, and a parseable file holding one record with score 130 aborts
initialization with an error. -/
theorem c6_witness :
    Store.init (.content "  " (.ok [npsOpp130])) = .ok [] ∧
    Store.init (.content "not json" (.error ())) = .ok [] ∧
    ∃ e, Store.init (.content "[corrupt-record]" (.ok [npsOpp130])) = .error e :=
  ⟨c6_initialize_error_policy.2.1 "  " (.ok [npsOpp130]) (by decide),
   c6_initialize_error_policy.2.2.1 "not json" (by decide),
   c6_initialize_error_policy.2.2.2 "[corrupt-record]" [npsOpp130] (by decide)
     ⟨npsOpp130, List.mem_singleton.mpr rfl, by decide⟩⟩

/-- C7: calling `create` twice with the same id — the first call with a valid
record inserts it; a second call whose (valid) record carries the same id
fails with `AlreadyExists`; and afterwards the store holds exactly one record
with that id, the one from the first call. -/
theorem c7_create_once (s : Store) (o1 o2 : Opportunity)
    (h1 : validateOpportunity o1 = .ok ()) (h2 : validateOpportunity o2 = .ok ())
    (hid : o2.id = o1.id) (hnone : s.get o1.id = none) :
    Store.create s o1 = .ok (s ++ [o1]) ∧
    Store.create (s ++ [o1]) o2 = .error (.alreadyExists o1.id) ∧
    (s ++ [o1]).filter (fun r => r.id = o1.id) = [o1] := by
  have hfresh : ∀ r ∈ s, r.id ≠ o1.id := get_none_iff.mp hnone
  refine ⟨?_, ?_, ?_⟩
  · simp [Store.create, h1, hnone]
  · simp only [Store.create, h2]
    rw [hid, get_append_of_none o1 hnone rfl]
    simp
  · rw [List.filter_append]
    have hnil : s.filter (fun r => r.id = o1.id) = [] := by
      rw [List.filter_eq_nil_iff]
      intro r hr
      simpa using hfresh r hr
    simp [hnil]

/-- C7 witness: creating the same id "opp-1" twice in an empty store — the
first create inserts, the second fails with `AlreadyExists`, and the store
holds exactly the first record. -/
theorem c7_witness :
    Store.create [] (oppWithStatus "detected") = .ok [oppWithStatus "detected"] ∧
    Store.create [oppWithStatus "detected"] (oppWithStatus "promoted") =
      .error (.alreadyExists "opp-1") ∧
    [oppWithStatus "detected"].filter (fun r => r.id = "opp-1") =
      [oppWithStatus "detected"] := by
  have h := c7_create_once [] (oppWithStatus "detected") (oppWithStatus "promoted")
    (by decide) (by decide) rfl rfl
  exact h

/-- C8: `update` fails with `NotFound` when the id is absent; when the merged
record fails validation it fails with `InvalidRecord` and the store state is
untouched; on success the stored result is exactly the shallow merge of the
existing record and the patch, except that `id` always keeps its original
value (even against a patch that tries to set it) and `updatedAt` is stamped
with the current time. -/
theorem c8_update_contract :
    (∀ (s : Store) (id : String) (p : OpportunityPatch) (now : String),
      s.get id = none → Store.update s id p now = .error (.notFound id)) ∧
    (∀ (s : Store) (id : String) (r : Opportunity) (p : OpportunityPatch)
        (now : String) (e : StoreErr),
      s.get id = some r → validateOpportunity (mergePatch r p now) = .error e →
      M.storeUpdate id p now s = (s, [], .error (.store e))) ∧
    (∀ (s : Store) (id : String) (r : Opportunity) (p : OpportunityPatch)
        (now : String),
      s.get id = some r → validateOpportunity (mergePatch r p now) = .ok () →
      Store.update s id p now =
        .ok (s.replace id (mergePatch r p now), mergePatch r p now) ∧
      (mergePatch r p now).id = r.id ∧
      (mergePatch r p now).updatedAt = now ∧
      (∀ x, mergePatch r { p with id := some x } now = mergePatch r p now) ∧
      (mergePatch r p now).status = p.status.getD r.status ∧
      (mergePatch r p now).score = p.score.getD r.score ∧
      (mergePatch r p now).specUrl = p.specUrl.getD r.specUrl) := by
  refine ⟨?_, ?_, ?_⟩
  · intro s id p now h
    exact update_notFound h
  · intro s id r p now e hget hval
    simp [M.storeUpdate, update_invalid hget hval]
  · intro s id r p now hget hval
    exact ⟨update_ok hget hval, rfl, rfl, fun _ => rfl, rfl, rfl, rfl⟩

/-- C8 witness: in a one-record store — updating a missing id fails with
`NotFound`; patching score to 150 fails with `InvalidRecord` leaving the
state untouched; patching status to "promoted" succeeds and returns the
merged record with the original id and the fresh `updatedAt`. -/
theorem c8_witness :
    Store.update [oppWithStatus "detected"] "ghost" (statusPatch "promoted") "T1" =
      .error (.notFound "ghost") ∧
    M.storeUpdate "opp-1" { score := some 150 } "T1" [oppWithStatus "detected"] =
      ([oppWithStatus "detected"], [], .error (.store .invalidScore)) ∧
    Store.update [oppWithStatus "detected"] "opp-1" (statusPatch "promoted") "T1" =
      .ok (Store.replace [oppWithStatus "detected"] "opp-1"
             (mergePatch (oppWithStatus "detected") (statusPatch "promoted") "T1"),
           mergePatch (oppWithStatus "detected") (statusPatch "promoted") "T1") := by
  refine ⟨c8_update_contract.1 [oppWithStatus "detected"] "ghost"
    (statusPatch "promoted") "T1" (by decide), ?_, ?_⟩
  · exact c8_update_contract.2.1 [oppWithStatus "detected"] "opp-1"
      (oppWithStatus "detected") { score := some 150 } "T1" .invalidScore
      (by decide) (by decide)
  · exact (c8_update_contract.2.2 [oppWithStatus "detected"] "opp-1"
      (oppWithStatus "detected") (statusPatch "promoted") "T1"
      (by decide) (by decide)).1

/-- C9: funnel detection — every emitted candidate comes from a step with
`dropoffRate > 0.3` (so steps at or below 0.3 never yield one), carries the
score `round(min(dropoffRate*100, 70) + min(userCount/1000*30, 30))`, and is
emitted only when that score reaches the configured minimum; conversely every
qualifying step whose score reaches the minimum is emitted.  In particular a
step with `dropoffRate = 0.45`, `userCount = 900` yields exactly one
candidate, scored 72, whenever the threshold is at most 72. -/
theorem c9_funnel_detection :
    (∀ (m : ℚ) (funnels : List FunnelData) (c : FunnelCandidate),
      c ∈ detectFunnelOpportunities m funnels →
      c.dropoffRate > 3 / 10 ∧
      c.score = calculateFunnelScore c.dropoffRate c.userCount ∧
      (c.score : ℚ) ≥ m) ∧
    (∀ (m : ℚ) (funnels : List FunnelData) (f : FunnelData) (i : ℕ)
        (step : FunnelStep),
      f ∈ funnels → f.steps[i]? = some step → step.dropoffRate > 3 / 10 →
      (calculateFunnelScore step.dropoffRate step.userCount : ℚ) ≥ m →
      (⟨f.funnelId, f.funnelName, step.stepName, i, step.dropoffRate,
        step.userCount,
        calculateFunnelScore step.dropoffRate step.userCount⟩ : FunnelCandidate) ∈
        detectFunnelOpportunities m funnels) ∧
    (∀ m : ℚ, m ≤ 72 → detectFunnelOpportunities m [demoFunnel] = [demoCandidate]) := by
  refine ⟨?_, ?_, ?_⟩
  · intro m funnels c hc
    obtain ⟨f, hf, hmem⟩ := (detectFunnel_mem m funnels c).mp hc
    obtain ⟨j, step, hj, hd, hs, rfl⟩ := (funnelStepCandidates_mem m f f.steps 0 c).mp hmem
    exact ⟨hd, rfl, hs⟩
  · intro m funnels f i step hf hstep hd hs
    refine (detectFunnel_mem m funnels _).mpr ⟨f, hf, ?_⟩
    refine (funnelStepCandidates_mem m f f.steps 0 _).mpr ⟨i, step, hstep, hd, hs, ?_⟩
    simp
  · intro m hm
    have hd : (45 / 100 : ℚ) > 3 / 10 := by norm_num
    have h72 : ((72 : ℤ) : ℚ) ≥ m := by exact_mod_cast hm
    simp only [detectFunnelOpportunities, demoFunnel, List.map_cons, List.map_nil,
      List.flatten, funnelStepCandidates, calcFunnelScore_demo, if_pos hd, if_pos h72,
      List.append_nil]
    rfl

/-- C9 witness: at the default minimum score 60 the demo funnel yields
exactly the single candidate scored 72. -/
theorem c9_witness : detectFunnelOpportunities 60 [demoFunnel] = [demoCandidate] :=
  c9_funnel_detection.2.2 60 (by norm_num)

/-- C10: the store enforces no status-transition edges — for every
well-formed stored record and every member `st` of the status enum,
`update(id, {status: st})` succeeds (the record's score is unchanged, hence
still in [0,100]) and stores `st`, including reversals such as
`shipped → detected`.  The store's error vocabulary (`StoreErr`) has no
transition error at all: its validation checks only the id, enum membership
of the status (plus truthiness of `type`), and the score bounds. -/
theorem c10_store_has_no_transition_guard
    (s : Store) (id : String) (r : Opportunity) (now st : String)
    (hwf : StoreWF s) (hget : s.get id = some r) (hst : st ∈ statusValues) :
    Store.update s id (statusPatch st) now =
      .ok (s.replace id (mergePatch r (statusPatch st) now),
           mergePatch r (statusPatch st) now) ∧
    (mergePatch r (statusPatch st) now).status = st := by
  have hval : validateOpportunity (mergePatch r (statusPatch st) now) = .ok () :=
    validate_merge_status (hwf r (mem_of_get hget)) rfl rfl rfl hst
  exact ⟨update_ok hget hval, by simp [mergePatch, statusPatch]⟩

/-- C10 witness: a `shipped` record is happily moved back to `detected` by
the store. -/
theorem c10_witness :
    Store.update [oppWithStatus "shipped"] "opp-1" (statusPatch "detected") "T1" =
      .ok (Store.replace [oppWithStatus "shipped"] "opp-1"
             (mergePatch (oppWithStatus "shipped") (statusPatch "detected") "T1"),
           mergePatch (oppWithStatus "shipped") (statusPatch "detected") "T1") ∧
    (mergePatch (oppWithStatus "shipped") (statusPatch "detected") "T1").status =
      "detected" :=
  c10_store_has_no_transition_guard [oppWithStatus "shipped"] "opp-1"
    (oppWithStatus "shipped") "T1" "detected"
    (by intro r hr; rw [List.mem_singleton] at hr; subst hr; decide)
    (by decide) (by decide)

end OppOS

